import Mathlib

/-!
Shallow embedding of the text-replacement core of `PDFEditor.py`
(`text_width`, `scale_font_to_fit`, `replace_text_in_pdf`).

Coordinates and font sizes are modelled as rationals.  The external
document library (PyMuPDF) is modelled by a `Page` record of query
functions (literal search, word extraction, plain-text extraction) and
by a `shaper` oracle standing for `fitz.get_text_length` (returning
`none` when the shaping facility is unavailable, which triggers the
source's fallback approximation).  Page mutations (`add_redact_annot`,
`apply_redactions`, `insert_text`) are recorded as an explicit event
trace, and the replacement counter is threaded exactly as in the source.
-/

namespace PDFEditor

/-- Measurement oracle standing for `fitz.get_text_length(text, fontname, fontsize)`;
`none` models the `except` branch of `text_width`. -/
abbrev Shaper : Type := String → String → ℚ → Option ℚ

/-- Translation of `text_width(text, fontsize=10, fontname="helv")`:
uses the shaping facility when available, otherwise the fallback
approximation `fontsize * 0.55 * len(text)`. -/
def text_width (shaper : Shaper) (text : String) (fontsize : ℚ) (fontname : String) : ℚ :=
  match shaper text fontname fontsize with
  | some w => w
  | none => fontsize * (11 / 20) * text.length

/-- Translation of `scale_font_to_fit(target_width, text, base_fontsize=10,
fontname="helv", min_fs=8, max_fs=14)`: if the width of `text` at
`base_fontsize` is `≤ 0` return `base_fontsize`; otherwise linearly scale
and clamp to `[min_fs, max_fs]`. -/
def scale_font_to_fit (shaper : Shaper) (target_width : ℚ) (text : String)
    (base_fontsize : ℚ) (fontname : String) (min_fs max_fs : ℚ) : ℚ :=
  let w := text_width shaper text base_fontsize fontname
  if w ≤ 0 then base_fontsize
  else max min_fs (min max_fs (base_fontsize * (target_width / w)))

/-- Model of Python's `str.lower()`: lower-case every character. -/
def pyLower (s : String) : String := ⟨s.data.map Char.toLower⟩

/-- Model of Python's `str.strip()`: drop leading and trailing whitespace. -/
def pyStrip (s : String) : String :=
  ⟨((s.data.dropWhile Char.isWhitespace).reverse.dropWhile Char.isWhitespace).reverse⟩

/-- Axis-aligned rectangle, as `fitz.Rect(x0, y0, x1, y1)`. -/
structure Rect where
  x0 : ℚ
  y0 : ℚ
  x1 : ℚ
  y1 : ℚ
deriving DecidableEq

/-- Width of a rectangle, as `rect.width` in PyMuPDF. -/
def Rect.width (r : Rect) : ℚ := r.x1 - r.x0

/-- Word tuple as returned by `page.get_text("words")`:
`(x0, y0, x1, y1, text, block_no, line_no, word_no)`. -/
structure Word where
  x0 : ℚ
  y0 : ℚ
  x1 : ℚ
  y1 : ℚ
  text : String
  block : Nat
  line : Nat
  wordNo : Nat
deriving DecidableEq

/-- Page-mutation events: `page.add_redact_annot(rect, fill)`,
`page.apply_redactions()`, `page.insert_text((x, y), text, fontsize,
fontname, color)`. -/
inductive Ev where
  | redactAnnot : Rect → ℚ × ℚ × ℚ → Ev
  | applyRedactions : Ev
  | insertText : ℚ → ℚ → String → ℚ → String → ℚ × ℚ × ℚ → Ev
deriving DecidableEq

/-- One replacement as performed by the source at every site:
redact the box with white fill, apply the redaction, then draw the new
text anchored at the box's lower-left `(x0, y1 - 2)` in black. -/
def replaceBlock (r : Rect) (t : String) (fs : ℚ) : List Ev :=
  [Ev.redactAnnot r (1, 1, 1), Ev.applyRedactions,
   Ev.insertText r.x0 (r.y1 - 2) t fs "helv" (0, 0, 0)]

/-- A page of the open document: the query capabilities the core consumes
(`page.search_for(lit, clip)`, `page.get_text("words", clip)`,
`page.get_text("text", clip)`) together with `page.rect`. -/
structure Page where
  searchFor : String → Rect → List Rect
  getWords : Rect → List Word
  getText : Rect → String
  rect : Rect

/-- Footer band: `fitz.Rect(rect.x0, rect.y1 - footer_margin, rect.x1, rect.y1)`. -/
def footerRect (p : Page) (footer_margin : ℚ) : Rect :=
  ⟨p.rect.x0, p.rect.y1 - footer_margin, p.rect.x1, p.rect.y1⟩

/-- Header band: `fitz.Rect(rect.x0, rect.y0, rect.x1, rect.y0 + header_margin)`. -/
def headerRect (p : Page) (header_margin : ℚ) : Rect :=
  ⟨p.rect.x0, p.rect.y0, p.rect.x1, p.rect.y0 + header_margin⟩

/-- Strict key order on word tuples by `(block, line, word_no)`, the key
of `words.sort(key=lambda w: (w[5], w[6], w[7]))`. -/
def wordKeyLt (a b : Word) : Bool :=
  Nat.blt a.block b.block ||
    (a.block == b.block &&
      (Nat.blt a.line b.line || (a.line == b.line && Nat.blt a.wordNo b.wordNo)))

/-- Stable insertion of a word into an already key-sorted list: the new
word goes before every word whose key is not strictly smaller. -/
def insertWord (a : Word) : List Word → List Word
  | [] => [a]
  | b :: bs => if wordKeyLt b a then b :: insertWord a bs else a :: b :: bs

/-- Stable sort by `(block, line, word_no)`, modelling Python's stable
`list.sort`. -/
def sortWords : List Word → List Word
  | [] => []
  | w :: ws => insertWord w (sortWords ws)

/-- Predicate for one character of the separator class: `'-'` or `'/'`. -/
def isSepChar (c : Char) : Bool := c = '-' || c = '/'

/-- Match of exactly the strict date pattern (two digits, a separator,
two digits, a separator, four digits; each separator independently `'-'`
or `'/'`) against a ten-character candidate. -/
def datePat10 (l : List Char) : Bool :=
  match l with
  | [d1, d2, s1, d3, d4, s2, y1, y2, y3, y4] =>
    d1.isDigit && d2.isDigit && isSepChar s1 && d3.isDigit && d4.isDigit &&
      isSepChar s2 && y1.isDigit && y2.isDigit && y3.isDigit && y4.isDigit
  | _ => false

/-- Translation of the source's `re.fullmatch` of the strict date
pattern against `s`, viewed as a Boolean test. -/
def dateFullmatch (s : String) : Bool := datePat10 s.data

/-- Attempt to match the Tier B pattern — the label `Date:`
(case-insensitive), then `\s*`, then the strict date pattern — at the
start of a character list; returns `(group0, group1)` —
the whole match and the label-plus-whitespace part.  Greedy `\s*` is
exact here because whitespace and digits are disjoint. -/
def matchDateAt (cs : List Char) : Option (List Char × List Char) :=
  match cs with
  | c1 :: c2 :: c3 :: c4 :: c5 :: rest =>
    if c1.toLower = 'd' ∧ c2.toLower = 'a' ∧ c3.toLower = 't' ∧
        c4.toLower = 'e' ∧ c5 = ':' then
      let ws := rest.takeWhile Char.isWhitespace
      let tail := rest.dropWhile Char.isWhitespace
      match tail with
      | d1 :: d2 :: s1 :: d3 :: d4 :: s2 :: y1 :: y2 :: y3 :: y4 :: _ =>
        if datePat10 [d1, d2, s1, d3, d4, s2, y1, y2, y3, y4] then
          some (([c1, c2, c3, c4, c5] ++ ws) ++ [d1, d2, s1, d3, d4, s2, y1, y2, y3, y4],
                [c1, c2, c3, c4, c5] ++ ws)
        else none
      | _ => none
    else none
  | _ => none

/-- Leftmost-match scan for the Tier B pattern, as `re.search`. -/
def searchDateFrom : List Char → Option (String × String)
  | [] => none
  | c :: rest =>
    match matchDateAt (c :: rest) with
    | some (g0, g1) => some (⟨g0⟩, ⟨g1⟩)
    | none => searchDateFrom rest

/-- Translation of the source's case-insensitive `re.search` of the Tier B
pattern over the header text, returning `(m.group(0), m.group(1))` of the
leftmost match when one exists. -/
def regexSearchDate (s : String) : Option (String × String) := searchDateFrom s.data

/-- Tier A loop body over the sorted word list: for each index `i`, if
`words[i]` normalises to `"date:"` and `words[i+1]` exists and its
stripped text passes the strict date check, redact the value word's box
and reinsert `new_date` at a fitted size; the loop never breaks, and the
scan advances one word at a time. -/
def tierAGo (shaper : Shaper) (new_date : String) : List Word → List Ev × Nat
  | w :: next :: rest =>
    let r := tierAGo shaper new_date (next :: rest)
    if pyLower (pyStrip w.text) = "date:" ∧ dateFullmatch (pyStrip next.text) then
      let date_rect : Rect := ⟨next.x0, next.y0, next.x1, next.y1⟩
      let fs := scale_font_to_fit shaper date_rect.width new_date 10 "helv" 8 14
      (replaceBlock date_rect new_date fs ++ r.1, r.2 + 1)
    else r
  | _ => ([], 0)

/-- Tier B fallback: pattern-search the header's plain text; on a match,
for every visual box of the full matched substring, shift the left edge
right by the measured width of the prefix at size 10 and redact/reinsert
only that sub-box. -/
def tierB (shaper : Shaper) (p : Page) (header : Rect) (new_date : String) :
    List Ev × Nat :=
  match regexSearchDate (p.getText header) with
  | none => ([], 0)
  | some (full_match, pre) =>
    let insts := p.searchFor full_match header
    (insts.flatMap (fun inst =>
        let prefix_w := text_width shaper pre 10 "helv"
        let date_x0 := inst.x0 + prefix_w
        let date_rect : Rect := ⟨date_x0, inst.y0, inst.x1, inst.y1⟩
        let fs := scale_font_to_fit shaper date_rect.width new_date 10 "helv" 8 14
        replaceBlock date_rect new_date fs),
     insts.length)

/-- Date step of `replace_text_in_pdf`: guarded by
`replace_date and new_date.strip()`; Tier A runs on the key-sorted words
of the header band, and Tier B runs only when Tier A replaced nothing on
the page. -/
def dateStep (shaper : Shaper) (p : Page) (header : Rect) (replace_date : Bool)
    (new_date : String) : List Ev × Nat :=
  if replace_date = true ∧ pyStrip new_date ≠ "" then
    let a := tierAGo shaper new_date (sortWords (p.getWords header))
    if a.2 = 0 then
      let b := tierB shaper p header new_date
      (a.1 ++ b.1, a.2 + b.2)
    else a
  else ([], 0)

/-- Roll-number step: guarded by `old_roll.strip()`; every occurrence of
`old_roll` found in the footer band is redacted and `new_roll` reinserted
at fixed size 10, counting one per occurrence. -/
def processRoll (p : Page) (footer : Rect) (old_roll new_roll : String) :
    List Ev × Nat :=
  if pyStrip old_roll ≠ "" then
    let insts := p.searchFor old_roll footer
    (insts.flatMap (fun inst => replaceBlock inst new_roll 10), insts.length)
  else ([], 0)

/-- Name step: guarded by `replace_name and old_name.strip() and
new_name.strip()`; otherwise identical to the roll step. -/
def processName (p : Page) (footer : Rect) (replace_name : Bool)
    (old_name new_name : String) : List Ev × Nat :=
  if replace_name = true ∧ pyStrip old_name ≠ "" ∧ pyStrip new_name ≠ "" then
    let insts := p.searchFor old_name footer
    (insts.flatMap (fun inst => replaceBlock inst new_name 10), insts.length)
  else ([], 0)

/-- Per-page body of `replace_text_in_pdf`: footer roll step, optional
footer name step, optional two-tier header date step, in source order. -/
def processPage (shaper : Shaper) (p : Page) (old_roll new_roll : String)
    (replace_name : Bool) (old_name new_name : String)
    (replace_date : Bool) (new_date : String)
    (footer_margin header_margin : ℚ) : List Ev × Nat :=
  let footer := footerRect p footer_margin
  let header := headerRect p header_margin
  let r := processRoll p footer old_roll new_roll
  let n := processName p footer replace_name old_name new_name
  let d := dateStep shaper p header replace_date new_date
  (r.1 ++ n.1 ++ d.1, r.2 + n.2 + d.2)

/-- Translation of `replace_text_in_pdf`: processes every page in order
and returns the per-page mutation traces (the serialized output) together
with the total replacement count. -/
def replace_text_in_pdf (shaper : Shaper) (doc : List Page)
    (old_roll new_roll : String) (replace_name : Bool) (old_name new_name : String)
    (replace_date : Bool) (new_date : String)
    (footer_margin header_margin : ℚ) : List (List Ev) × Nat :=
  ((doc.map fun p =>
      (processPage shaper p old_roll new_roll replace_name old_name new_name
        replace_date new_date footer_margin header_margin).1),
   (doc.map fun p =>
      (processPage shaper p old_roll new_roll replace_name old_name new_name
        replace_date new_date footer_margin header_margin).2).sum)


/-! Specification-side characterisations and structural helpers. -/

/-- Number of adjacent pairs of the word list whose first member
normalises to `"date:"` and whose second member passes the strict date
check — the pairs Tier A acts on. -/
def countDatePairs : List Word → Nat
  | w :: next :: rest =>
    (if pyLower (pyStrip w.text) = "date:" ∧ dateFullmatch (pyStrip next.text) then 1 else 0)
      + countDatePairs (next :: rest)
  | _ => 0

/-- Concatenation of redact-apply-insert blocks, one per replacement. -/
def blocksTrace : List (Rect × String × ℚ) → List Ev
  | [] => []
  | b :: bs => replaceBlock b.1 b.2.1 b.2.2 ++ blocksTrace bs

/-- A trace is a block trace when it is a concatenation of
redact-apply-insert blocks. -/
def IsBlockTrace (evs : List Ev) : Prop := ∃ L, evs = blocksTrace L

theorem blocksTrace_append (L₁ L₂ : List (Rect × String × ℚ)) :
    blocksTrace (L₁ ++ L₂) = blocksTrace L₁ ++ blocksTrace L₂ := by
  induction L₁ with
  | nil => simp [blocksTrace]
  | cons b bs ih => simp [blocksTrace, ih]

theorem IsBlockTrace.append {a b : List Ev} (ha : IsBlockTrace a) (hb : IsBlockTrace b) :
    IsBlockTrace (a ++ b) := by
  obtain ⟨L₁, h₁⟩ := ha
  obtain ⟨L₂, h₂⟩ := hb
  exact ⟨L₁ ++ L₂, by rw [h₁, h₂, blocksTrace_append]⟩

theorem isBlockTrace_nil : IsBlockTrace [] := ⟨[], rfl⟩

theorem isBlockTrace_flatMap {α : Type} (l : List α) (f : α → List Ev)
    (hf : ∀ a, ∃ b : Rect × String × ℚ, f a = replaceBlock b.1 b.2.1 b.2.2) :
    IsBlockTrace (l.flatMap f) := by
  induction l with
  | nil => exact isBlockTrace_nil
  | cons a l ih =>
    obtain ⟨b, hb⟩ := hf a
    obtain ⟨L, hL⟩ := ih
    exact ⟨b :: L, by simp [List.flatMap_cons, hb, hL, blocksTrace]⟩

theorem tierAGo_fst_isBlockTrace (shaper : Shaper) (nd : String) :
    ∀ ws : List Word, IsBlockTrace (tierAGo shaper nd ws).1
  | [] => isBlockTrace_nil
  | [w] => isBlockTrace_nil
  | w :: next :: rest => by
    obtain ⟨L, hL⟩ := tierAGo_fst_isBlockTrace shaper nd (next :: rest)
    by_cases h : pyLower (pyStrip w.text) = "date:" ∧ dateFullmatch (pyStrip next.text)
    · refine ⟨(⟨next.x0, next.y0, next.x1, next.y1⟩, nd,
        scale_font_to_fit shaper (Rect.width ⟨next.x0, next.y0, next.x1, next.y1⟩) nd 10 "helv" 8 14) :: L, ?_⟩
      simp only [tierAGo, if_pos h, blocksTrace, hL]
    · simpa only [tierAGo, if_neg h] using ⟨L, hL⟩

theorem tierAGo_snd_eq_countDatePairs (shaper : Shaper) (nd : String) :
    ∀ ws : List Word, (tierAGo shaper nd ws).2 = countDatePairs ws
  | [] => rfl
  | [w] => rfl
  | w :: next :: rest => by
    have ih := tierAGo_snd_eq_countDatePairs shaper nd (next :: rest)
    by_cases h : pyLower (pyStrip w.text) = "date:" ∧ dateFullmatch (pyStrip next.text)
    · simp only [tierAGo, countDatePairs, if_pos h, ih]
      omega
    · simp only [tierAGo, countDatePairs, if_neg h, ih]
      omega

theorem tierAGo_fst_nil_of_snd_zero (shaper : Shaper) (nd : String) :
    ∀ ws : List Word, (tierAGo shaper nd ws).2 = 0 → (tierAGo shaper nd ws).1 = []
  | [] => fun _ => rfl
  | [w] => fun _ => rfl
  | w :: next :: rest => by
    intro h0
    by_cases h : pyLower (pyStrip w.text) = "date:" ∧ dateFullmatch (pyStrip next.text)
    · simp only [tierAGo, if_pos h] at h0
      omega
    · simp only [tierAGo, if_neg h] at h0 ⊢
      exact tierAGo_fst_nil_of_snd_zero shaper nd (next :: rest) h0

theorem processRoll_fst_isBlockTrace (p : Page) (footer : Rect) (o n : String) :
    IsBlockTrace (processRoll p footer o n).1 := by
  by_cases h : pyStrip o ≠ ""
  · simp only [processRoll, if_pos h]
    exact isBlockTrace_flatMap _ _ (fun inst => ⟨(inst, n, 10), rfl⟩)
  · simp only [processRoll, if_neg h]
    exact isBlockTrace_nil

theorem processName_fst_isBlockTrace (p : Page) (footer : Rect) (rn : Bool) (o n : String) :
    IsBlockTrace (processName p footer rn o n).1 := by
  by_cases h : rn = true ∧ pyStrip o ≠ "" ∧ pyStrip n ≠ ""
  · simp only [processName, if_pos h]
    exact isBlockTrace_flatMap _ _ (fun inst => ⟨(inst, n, 10), rfl⟩)
  · simp only [processName, if_neg h]
    exact isBlockTrace_nil

theorem tierB_fst_isBlockTrace (shaper : Shaper) (p : Page) (header : Rect) (nd : String) :
    IsBlockTrace (tierB shaper p header nd).1 := by
  rcases hre : regexSearchDate (p.getText header) with _ | ⟨g0, g1⟩
  · simp only [tierB, hre]
    exact isBlockTrace_nil
  · simp only [tierB, hre]
    refine isBlockTrace_flatMap _ _ (fun inst => ?_)
    exact ⟨(⟨inst.x0 + text_width shaper g1 10 "helv", inst.y0, inst.x1, inst.y1⟩, nd,
      scale_font_to_fit shaper
        (Rect.width ⟨inst.x0 + text_width shaper g1 10 "helv", inst.y0, inst.x1, inst.y1⟩)
        nd 10 "helv" 8 14), rfl⟩

theorem dateStep_fst_isBlockTrace (shaper : Shaper) (p : Page) (header : Rect)
    (rd : Bool) (nd : String) : IsBlockTrace (dateStep shaper p header rd nd).1 := by
  by_cases h : rd = true ∧ pyStrip nd ≠ ""
  · simp only [dateStep, if_pos h]
    by_cases h0 : (tierAGo shaper nd (sortWords (p.getWords header))).2 = 0
    · simp only [if_pos h0]
      exact (tierAGo_fst_isBlockTrace shaper nd _).append (tierB_fst_isBlockTrace shaper p header nd)
    · simp only [if_neg h0]
      exact tierAGo_fst_isBlockTrace shaper nd _
  · simp only [dateStep, if_neg h]
    exact isBlockTrace_nil

theorem processPage_fst_isBlockTrace (shaper : Shaper) (p : Page)
    (o n : String) (rn : Bool) (onm nn : String) (rd : Bool) (nd : String) (fm hm : ℚ) :
    IsBlockTrace (processPage shaper p o n rn onm nn rd nd fm hm).1 := by
  simp only [processPage]
  rw [List.append_assoc]
  exact (processRoll_fst_isBlockTrace _ _ _ _).append
    ((processName_fst_isBlockTrace _ _ _ _ _).append (dateStep_fst_isBlockTrace _ _ _ _ _))

/-- Positional structure of a block trace: an insertion sits exactly at
offset two of its block, right after its redaction and the redaction
application, and its anchor is the redacted box's lower-left corner. -/
theorem blocksTrace_insert_redact :
    ∀ (L : List (Rect × String × ℚ)) (k : Nat) (x y : ℚ) (t : String) (fs : ℚ)
      (fn : String) (col : ℚ × ℚ × ℚ),
    (blocksTrace L)[k]? = some (Ev.insertText x y t fs fn col) →
    ∃ j r fill, k = j + 2 ∧ (blocksTrace L)[j]? = some (Ev.redactAnnot r fill) ∧
      (blocksTrace L)[j + 1]? = some Ev.applyRedactions ∧ x = r.x0 ∧ y = r.y1 - 2
  | [], k, x, y, t, fs, fn, col => by
    intro h
    simp [blocksTrace] at h
  | b :: bs, 0, x, y, t, fs, fn, col => by
    intro h
    simp [blocksTrace, replaceBlock] at h
  | b :: bs, 1, x, y, t, fs, fn, col => by
    intro h
    simp [blocksTrace, replaceBlock] at h
  | b :: bs, 2, x, y, t, fs, fn, col => by
    intro h
    simp only [blocksTrace, replaceBlock, List.cons_append, List.nil_append,
      List.getElem?_cons_succ, List.getElem?_cons_zero] at h
    injection h with h'
    injection h' with h1 h2 h3 h4 h5 h6
    exact ⟨0, b.1, (1, 1, 1), rfl, rfl, rfl, h1.symm, h2.symm⟩
  | b :: bs, (k + 3), x, y, t, fs, fn, col => by
    intro h
    simp only [blocksTrace, replaceBlock, List.cons_append, List.nil_append,
      List.getElem?_cons_succ] at h
    obtain ⟨j, r, fill, hk, h1, h2, hx, hy⟩ :=
      blocksTrace_insert_redact bs k x y t fs fn col h
    exact ⟨j + 3, r, fill, by omega, by
      simpa [blocksTrace, replaceBlock, List.getElem?_cons_succ] using h1, by
      simpa [blocksTrace, replaceBlock, List.getElem?_cons_succ] using h2, hx, hy⟩

/-! Concrete fixtures used by counterexamples and witnesses. -/

/-- Shaping oracle that is always unavailable, so that `text_width`
always takes the fallback approximation branch. -/
def shaper0 : Shaper := fun _ _ _ => none

/-- Header word: a first `Date:` label. -/
def wLabel1 : Word := ⟨10, 20, 40, 30, "Date:", 0, 0, 0⟩

/-- Header word: the value following the first label. -/
def wVal1 : Word := ⟨45, 20, 95, 30, "13-08-2025", 0, 0, 1⟩

/-- Header word: a second `Date:` label on the next line. -/
def wLabel2 : Word := ⟨10, 40, 40, 50, "Date:", 0, 1, 0⟩

/-- Header word: the value following the second label. -/
def wVal2 : Word := ⟨45, 40, 95, 50, "01-01-2020", 0, 1, 1⟩

/-- Page whose header tokenises into two label/value date pairs and whose
literal searches find nothing. -/
def pageTwoDates : Page :=
  ⟨fun _ _ => [], fun _ => [wLabel1, wVal1, wLabel2, wVal2], fun _ => "", ⟨0, 0, 600, 800⟩⟩

/-- Shaping oracle reporting a constant width for every query. -/
def shaperConst (q : ℚ) : Shaper := fun _ _ _ => some q

/-- Header word: a `Date:` label for the mixed-separator page. -/
def wLabelM : Word := ⟨10, 20, 40, 30, "Date:", 0, 0, 0⟩

/-- Header word: a value whose two separators differ. -/
def wValM : Word := ⟨45, 20, 95, 30, "13-08/2025", 0, 0, 1⟩

/-- Page whose header tokenises into one label/value pair with a
mixed-separator date value. -/
def pageMixedSep : Page :=
  ⟨fun _ _ => [], fun _ => [wLabelM, wValM], fun _ => "", ⟨0, 0, 600, 800⟩⟩

/-- Page whose header plain text matches the Tier B pattern but whose
literal search finds no boxes. -/
def pageHeaderTextOnly : Page :=
  ⟨fun _ _ => [], fun _ => [], fun _ => "Date: 13-08-2025", ⟨0, 0, 600, 800⟩⟩

/-- Page on which every query comes back empty. -/
def pageEmpty : Page :=
  ⟨fun _ _ => [], fun _ => [], fun _ => "", ⟨0, 0, 600, 800⟩⟩

/-- Footer bounding box of the first roll-number occurrence. -/
def rollBox : Rect := ⟨30, 700, 90, 712⟩

/-- Footer bounding box of the second roll-number occurrence. -/
def rollBoxB : Rect := ⟨130, 700, 190, 712⟩

/-- Page on which literal search finds one box. -/
def pageOneRoll : Page :=
  ⟨fun _ _ => [rollBox], fun _ => [], fun _ => "", ⟨0, 0, 600, 800⟩⟩

/-- Page on which literal search finds two boxes. -/
def pageTwoRolls : Page :=
  ⟨fun _ _ => [rollBox, rollBoxB], fun _ => [], fun _ => "", ⟨0, 0, 600, 800⟩⟩

/-- Document of three pages, each with two footer occurrences. -/
def docThreePages : List Page := [pageTwoRolls, pageTwoRolls, pageTwoRolls]

/-! Claim theorems. -/

/-- Claim C1, counterexample: on a page whose header contains two tokens
normalising to `"date:"`, each followed by a valid date token, Tier A
performs two token-based replacements — not at most one — and the date
step's replacement count is 2. -/
theorem C1_counterexample :
    (tierAGo shaper0 "05-05-2025"
      (sortWords (pageTwoDates.getWords (headerRect pageTwoDates 120)))).2 = 2 ∧
    ¬ (dateStep shaper0 pageTwoDates (headerRect pageTwoDates 120) true "05-05-2025").2 ≤ 1 := by
  decide

/-- Claim C1, amended: with the date flag set and a non-blank new date,
Tier A performs one token-based replacement per adjacent label/value pair
found in token order — every such pair, not only the first — so the
page's token-based replacement count equals the number of matching
pairs. -/
theorem C1_amended_tierA_all_pairs (shaper : Shaper) (p : Page) (header : Rect)
    (nd : String) (hnd : pyStrip nd ≠ "") :
    (tierAGo shaper nd (sortWords (p.getWords header))).2 =
      countDatePairs (sortWords (p.getWords header)) ∧
    (countDatePairs (sortWords (p.getWords header)) ≠ 0 →
      (dateStep shaper p header true nd).2 =
        countDatePairs (sortWords (p.getWords header))) := by
  refine ⟨tierAGo_snd_eq_countDatePairs shaper nd _, fun hne => ?_⟩
  have hA := tierAGo_snd_eq_countDatePairs shaper nd (sortWords (p.getWords header))
  have hA0 : ¬ (tierAGo shaper nd (sortWords (p.getWords header))).2 = 0 := by
    rw [hA]; exact hne
  simp only [dateStep]
  rw [if_pos (show True ∧ pyStrip nd ≠ "" from ⟨trivial, hnd⟩), if_neg hA0]
  exact hA

/-- Claim C1, amended, witness at the two-pair page. -/
theorem C1_amended_tierA_all_pairs_witness :
    (tierAGo shaper0 "05-05-2025"
      (sortWords (pageTwoDates.getWords (headerRect pageTwoDates 120)))).2 =
      countDatePairs (sortWords (pageTwoDates.getWords (headerRect pageTwoDates 120))) ∧
    (dateStep shaper0 pageTwoDates (headerRect pageTwoDates 120) true "05-05-2025").2 =
      countDatePairs (sortWords (pageTwoDates.getWords (headerRect pageTwoDates 120))) := by
  have h := C1_amended_tierA_all_pairs shaper0 pageTwoDates (headerRect pageTwoDates 120)
    "05-05-2025" (by decide)
  exact ⟨h.1, h.2 (by decide)⟩

/-- Claim C2: with a non-blank primary literal (and the date flag off, to
look at the footer fields alone), every footer occurrence of the primary
literal — and of the secondary literal when its flag and both names are
non-blank — is redacted and replaced by one redact-apply-insert block,
and the total replacement count is the sum over pages of the number of
occurrences of each enabled field. -/
theorem C2_footer_replaces_every_occurrence (shaper : Shaper) (doc : List Page)
    (o n : String) (rn : Bool) (onm nn : String) (fm hm : ℚ)
    (hroll : pyStrip o ≠ "") :
    (∀ p : Page, processPage shaper p o n rn onm nn false "" fm hm =
      ((p.searchFor o (footerRect p fm)).flatMap (fun inst => replaceBlock inst n 10) ++
        (if rn = true ∧ pyStrip onm ≠ "" ∧ pyStrip nn ≠ "" then
          (p.searchFor onm (footerRect p fm)).flatMap (fun inst => replaceBlock inst nn 10)
        else []),
        (p.searchFor o (footerRect p fm)).length +
        (if rn = true ∧ pyStrip onm ≠ "" ∧ pyStrip nn ≠ "" then
          (p.searchFor onm (footerRect p fm)).length else 0))) ∧
    (replace_text_in_pdf shaper doc o n rn onm nn false "" fm hm).2 =
      (doc.map fun p =>
        (p.searchFor o (footerRect p fm)).length +
        (if rn = true ∧ pyStrip onm ≠ "" ∧ pyStrip nn ≠ "" then
          (p.searchFor onm (footerRect p fm)).length else 0)).sum := by
  have hpage : ∀ p : Page, processPage shaper p o n rn onm nn false "" fm hm =
      ((p.searchFor o (footerRect p fm)).flatMap (fun inst => replaceBlock inst n 10) ++
        (if rn = true ∧ pyStrip onm ≠ "" ∧ pyStrip nn ≠ "" then
          (p.searchFor onm (footerRect p fm)).flatMap (fun inst => replaceBlock inst nn 10)
        else []),
        (p.searchFor o (footerRect p fm)).length +
        (if rn = true ∧ pyStrip onm ≠ "" ∧ pyStrip nn ≠ "" then
          (p.searchFor onm (footerRect p fm)).length else 0)) := by
    intro p
    by_cases hg : rn = true ∧ pyStrip onm ≠ "" ∧ pyStrip nn ≠ ""
    · simp [processPage, processRoll, processName, dateStep, hroll, hg]
    · simp [processPage, processRoll, processName, dateStep, hroll, hg]
  refine ⟨hpage, ?_⟩
  simp only [replace_text_in_pdf]
  have hmap : (doc.map fun p =>
      (processPage shaper p o n rn onm nn false "" fm hm).2) =
      doc.map fun p =>
        (p.searchFor o (footerRect p fm)).length +
        (if rn = true ∧ pyStrip onm ≠ "" ∧ pyStrip nn ≠ "" then
          (p.searchFor onm (footerRect p fm)).length else 0) :=
    List.map_congr_left (fun p _ => by rw [hpage p])
  rw [hmap]

/-- Claim C2, witness: three pages with two footer occurrences of the
primary literal each (name and date fields off) give a total count of
six. -/
theorem C2_footer_replaces_every_occurrence_witness :
    (replace_text_in_pdf shaper0 docThreePages "R1" "R2" false "" "" false "" 120 120).2 = 6 := by
  have h := (C2_footer_replaces_every_occurrence shaper0 docThreePages "R1" "R2"
    false "" "" 120 120 (by decide)).2
  rw [h]
  decide

/-- Claim C3: when no field matches anything — empty footer search
results for both literals, no Tier A label/value pair, and a Tier B
pattern match (if any) whose literal search finds no boxes — the whole
invocation still completes, produces one (empty) trace per page, and
returns a replacement count of zero. -/
theorem C3_zero_matches_not_error (shaper : Shaper) (doc : List Page)
    (o n : String) (rn : Bool) (onm nn : String) (rd : Bool) (nd : String) (fm hm : ℚ)
    (h : ∀ p ∈ doc,
      p.searchFor o (footerRect p fm) = [] ∧
      p.searchFor onm (footerRect p fm) = [] ∧
      countDatePairs (sortWords (p.getWords (headerRect p hm))) = 0 ∧
      ∀ g0 g1, regexSearchDate (p.getText (headerRect p hm)) = some (g0, g1) →
        p.searchFor g0 (headerRect p hm) = []) :
    replace_text_in_pdf shaper doc o n rn onm nn rd nd fm hm =
      (doc.map fun _ => ([] : List Ev), 0) := by
  have hpage : ∀ p ∈ doc, processPage shaper p o n rn onm nn rd nd fm hm = ([], 0) := by
    intro p hp
    obtain ⟨h1, h2, h3, h4⟩ := h p hp
    have hroll : processRoll p (footerRect p fm) o n = ([], 0) := by
      by_cases hg : pyStrip o ≠ ""
      · simp [processRoll, hg, h1]
      · simp [processRoll, hg]
    have hname : processName p (footerRect p fm) rn onm nn = ([], 0) := by
      by_cases hg : rn = true ∧ pyStrip onm ≠ "" ∧ pyStrip nn ≠ ""
      · simp [processName, hg, h2]
      · simp [processName, hg]
    have htB : tierB shaper p (headerRect p hm) nd = ([], 0) := by
      rcases hre : regexSearchDate (p.getText (headerRect p hm)) with _ | ⟨g0, g1⟩
      · simp [tierB, hre]
      · simp [tierB, hre, h4 g0 g1 hre]
    have hdate : dateStep shaper p (headerRect p hm) rd nd = ([], 0) := by
      by_cases hg : rd = true ∧ pyStrip nd ≠ ""
      · have hA2 : (tierAGo shaper nd (sortWords (p.getWords (headerRect p hm)))).2 = 0 := by
          rw [tierAGo_snd_eq_countDatePairs]
          exact h3
        have hA1 := tierAGo_fst_nil_of_snd_zero shaper nd _ hA2
        simp [dateStep, hg, hA2, hA1, htB]
      · simp [dateStep, hg]
    simp [processPage, hroll, hname, hdate]
  simp only [replace_text_in_pdf, Prod.mk.injEq]
  refine ⟨List.map_congr_left (fun p hp => by rw [hpage p hp]), ?_⟩
  refine List.sum_eq_zero ?_
  intro x hx
  obtain ⟨p, hp, rfl⟩ := List.mem_map.mp hx
  rw [hpage p hp]

/-- Claim C3, witness at a one-page document with empty queries. -/
theorem C3_zero_matches_not_error_witness :
    replace_text_in_pdf shaper0 [pageEmpty] "R1" "R2" false "" "" true "01-01-2026" 120 120 =
      ([([] : List Ev)], 0) := by
  refine C3_zero_matches_not_error shaper0 [pageEmpty] "R1" "R2" false "" "" true
    "01-01-2026" 120 120 ?_
  intro p hp
  have hp' : p = pageEmpty := by
    simpa using hp
  subst hp'
  refine ⟨rfl, rfl, rfl, ?_⟩
  intro g0 g1 hre
  rw [show regexSearchDate (pageEmpty.getText (headerRect pageEmpty 120)) = none from rfl] at hre
  exact Option.noConfusion hre

/-- Claim C4: when the measured width of the text at the base size is
positive (and the bounds are ordered, the base size positive), the fitted
size is clamped into the interval; once the target width is at or below
the minimum-size threshold the result is exactly the minimum, and once it
is at or above the maximum-size threshold the result is exactly the
maximum. -/
theorem C4_fit_font_size_clamped (shaper : Shaper) (text fontname : String)
    (target base mn mx : ℚ)
    (hw : 0 < text_width shaper text base fontname)
    (hmm : mn ≤ mx) :
    (mn ≤ scale_font_to_fit shaper target text base fontname mn mx ∧
      scale_font_to_fit shaper target text base fontname mn mx ≤ mx) ∧
    (target * base ≤ mn * text_width shaper text base fontname →
      scale_font_to_fit shaper target text base fontname mn mx = mn) ∧
    (mx * text_width shaper text base fontname ≤ target * base →
      scale_font_to_fit shaper target text base fontname mn mx = mx) := by
  have hne : ¬ text_width shaper text base fontname ≤ 0 := not_le.mpr hw
  have hval : scale_font_to_fit shaper target text base fontname mn mx =
      max mn (min mx (base * (target / text_width shaper text base fontname))) := by
    simp only [scale_font_to_fit, if_neg hne]
  set w := text_width shaper text base fontname with hwdef
  set fs := base * (target / w) with hfsdef
  refine ⟨⟨?_, ?_⟩, ?_, ?_⟩
  · rw [hval]
    exact le_max_left _ _
  · rw [hval]
    exact max_le hmm (min_le_left _ _)
  · intro hsmall
    have h1 : fs ≤ mn := by
      rw [hfsdef, ← mul_div_assoc, div_le_iff₀ hw]
      calc base * target = target * base := mul_comm _ _
        _ ≤ mn * w := hsmall
    rw [hval, min_eq_right (h1.trans hmm), max_eq_left h1]
  · intro hlarge
    have h2 : mx ≤ fs := by
      rw [hfsdef, ← mul_div_assoc, le_div_iff₀ hw]
      calc mx * w ≤ target * base := hlarge
        _ = base * target := mul_comm _ _
    rw [hval, min_eq_left h2, max_eq_right hmm]

/-- Claim C4, witness: with a constant measured width of 11 at base 10
and bounds 8 and 14, a tiny target width of 0 yields exactly 8 and a huge
target width of 1000 yields exactly 14, both inside the interval. -/
theorem C4_fit_font_size_clamped_witness :
    ((8:ℚ) ≤ scale_font_to_fit (shaperConst 11) 0 "ab" 10 "helv" 8 14 ∧
      scale_font_to_fit (shaperConst 11) 0 "ab" 10 "helv" 8 14 ≤ 14) ∧
    scale_font_to_fit (shaperConst 11) 0 "ab" 10 "helv" 8 14 = 8 ∧
    scale_font_to_fit (shaperConst 11) 1000 "ab" 10 "helv" 8 14 = 14 := by
  have hsmall := C4_fit_font_size_clamped (shaperConst 11) "ab" "helv" 0 10 8 14
    (by decide) (by decide)
  have hlarge := C4_fit_font_size_clamped (shaperConst 11) "ab" "helv" 1000 10 8 14
    (by decide) (by decide)
  have hw11 : text_width (shaperConst 11) "ab" 10 "helv" = 11 := rfl
  refine ⟨hsmall.1, hsmall.2.1 ?_, hlarge.2.2 ?_⟩
  · rw [hw11]
    norm_num
  · rw [hw11]
    norm_num

/-- Claim C5: when the target width equals the measured width of the text
at the base size (positive) and the base size lies within the bounds, the
fitted size is exactly the base size. -/
theorem C5_fit_font_size_identity (shaper : Shaper) (text fontname : String)
    (base mn mx : ℚ)
    (hw : 0 < text_width shaper text base fontname)
    (h1 : mn ≤ base) (h2 : base ≤ mx) :
    scale_font_to_fit shaper (text_width shaper text base fontname)
      text base fontname mn mx = base := by
  have hne : ¬ text_width shaper text base fontname ≤ 0 := not_le.mpr hw
  simp only [scale_font_to_fit, if_neg hne]
  rw [div_self (ne_of_gt hw), mul_one, min_eq_right h2, max_eq_right h1]

/-- Claim C5, witness at the defaults: base 10 within bounds 8 and 14. -/
theorem C5_fit_font_size_identity_witness :
    scale_font_to_fit (shaperConst 11) (text_width (shaperConst 11) "ab" 10 "helv")
      "ab" 10 "helv" 8 14 = 10 :=
  C5_fit_font_size_identity (shaperConst 11) "ab" "helv" 10 8 14
    (by decide) (by decide) (by decide)

/-- Claim C6: when the measured width of the text at the base size is not
positive, the fitted size is the base size, unscaled, for every target
width. -/
theorem C6_fit_font_size_degenerate (shaper : Shaper) (text fontname : String)
    (target base mn mx : ℚ)
    (hw : text_width shaper text base fontname ≤ 0) :
    scale_font_to_fit shaper target text base fontname mn mx = base := by
  simp only [scale_font_to_fit, if_pos hw]

/-- Claim C6, witness: an empty text measured at width 0 yields the base
size 10. -/
theorem C6_fit_font_size_degenerate_witness :
    scale_font_to_fit (shaperConst 0) 5 "" 10 "helv" 8 14 = 10 :=
  C6_fit_font_size_degenerate (shaperConst 0) "" "helv" 5 10 8 14 (by decide)

/-- Claim C7: the whole date step is a no-op whenever the date flag is
unset or the stripped new date is empty, independently of the page; with
the flag set and a non-blank date, Tier B is attempted exactly when Tier
A replaced nothing on the page. -/
theorem C7_date_step_gating (shaper : Shaper) (p : Page) (header : Rect)
    (rd : Bool) (nd : String) :
    (rd = false ∨ pyStrip nd = "" → dateStep shaper p header rd nd = ([], 0)) ∧
    (rd = true → pyStrip nd ≠ "" →
      (tierAGo shaper nd (sortWords (p.getWords header))).2 ≠ 0 →
      dateStep shaper p header rd nd =
        tierAGo shaper nd (sortWords (p.getWords header))) ∧
    (rd = true → pyStrip nd ≠ "" →
      (tierAGo shaper nd (sortWords (p.getWords header))).2 = 0 →
      dateStep shaper p header rd nd =
        ((tierAGo shaper nd (sortWords (p.getWords header))).1 ++
          (tierB shaper p header nd).1,
         (tierAGo shaper nd (sortWords (p.getWords header))).2 +
          (tierB shaper p header nd).2)) := by
  refine ⟨fun hoff => ?_, fun h1 h2 h3 => ?_, fun h1 h2 h3 => ?_⟩
  · have hneg : ¬ (rd = true ∧ pyStrip nd ≠ "") := by
      rcases hoff with h | h
      · intro hc
        rw [h] at hc
        exact Bool.false_ne_true hc.1
      · intro hc
        exact hc.2 h
    simp only [dateStep, if_neg hneg]
  · simp only [dateStep, if_pos (And.intro h1 h2), if_neg h3]
  · simp only [dateStep, if_pos (And.intro h1 h2), if_pos h3]

/-- Claim C7, witness: the date step with the flag off is a no-op, and on
the two-pair page (where Tier A replaces) the date step equals the Tier A
result alone. -/
theorem C7_date_step_gating_witness :
    dateStep shaper0 pageTwoDates (headerRect pageTwoDates 120) false "01-01-2026" = ([], 0) ∧
    dateStep shaper0 pageTwoDates (headerRect pageTwoDates 120) true "05-05-2025" =
      tierAGo shaper0 "05-05-2025"
        (sortWords (pageTwoDates.getWords (headerRect pageTwoDates 120))) :=
  ⟨(C7_date_step_gating shaper0 pageTwoDates (headerRect pageTwoDates 120)
      false "01-01-2026").1 (Or.inl rfl),
   (C7_date_step_gating shaper0 pageTwoDates (headerRect pageTwoDates 120)
      true "05-05-2025").2.1 rfl (by decide) (by decide)⟩

/-- Claim C8: in the per-page mutation trace, every insertion sits
exactly two positions after the redaction of its target box (with the
redaction application in between), and its anchor is that box's
lower-left corner — an insertion never precedes its redaction. -/
theorem C8_redact_precedes_insert (shaper : Shaper) (p : Page)
    (o n : String) (rn : Bool) (onm nn : String) (rd : Bool) (nd : String) (fm hm : ℚ)
    (k : Nat) (x y : ℚ) (t : String) (fs : ℚ) (fn : String) (col : ℚ × ℚ × ℚ)
    (h : (processPage shaper p o n rn onm nn rd nd fm hm).1[k]? =
      some (Ev.insertText x y t fs fn col)) :
    ∃ j r fill, k = j + 2 ∧
      (processPage shaper p o n rn onm nn rd nd fm hm).1[j]? =
        some (Ev.redactAnnot r fill) ∧
      (processPage shaper p o n rn onm nn rd nd fm hm).1[j + 1]? =
        some Ev.applyRedactions ∧
      x = r.x0 ∧ y = r.y1 - 2 := by
  obtain ⟨L, hL⟩ := processPage_fst_isBlockTrace shaper p o n rn onm nn rd nd fm hm
  rw [hL] at h ⊢
  exact blocksTrace_insert_redact L k x y t fs fn col h

/-- Claim C8, witness: on a page with one footer occurrence, the
insertion at trace position 2 is preceded by its redaction at position 0
and the redaction application at position 1. -/
theorem C8_redact_precedes_insert_witness :
    ∃ j r fill, 2 = j + 2 ∧
      (processPage shaper0 pageOneRoll "R1" "R2" false "" "" false "" 120 120).1[j]? =
        some (Ev.redactAnnot r fill) ∧
      (processPage shaper0 pageOneRoll "R1" "R2" false "" "" false "" 120 120).1[j + 1]? =
        some Ev.applyRedactions ∧
      rollBox.x0 = r.x0 ∧ rollBox.y1 - 2 = r.y1 - 2 :=
  C8_redact_precedes_insert shaper0 pageOneRoll "R1" "R2" false "" "" false "" 120 120
    2 rollBox.x0 (rollBox.y1 - 2) "R2" 10 "helv" (0, 0, 0) rfl

/-- Claim C9: the strict date check accepts mixed separators — each of
the two separator positions is independently a hyphen or a slash — and a
header token such as `13-08/2025` following a `Date:` label is accepted
and replaced by Tier A, redacting exactly the value token's box. -/
theorem C9_mixed_separators :
    dateFullmatch "13-08/2025" = true ∧ dateFullmatch "13/08-2025" = true ∧
    dateFullmatch "13-08-2025" = true ∧ dateFullmatch "13/08/2025" = true ∧
    (dateStep shaper0 pageMixedSep (headerRect pageMixedSep 120) true "01-01-2026").2 = 1 ∧
    (dateStep shaper0 pageMixedSep (headerRect pageMixedSep 120) true "01-01-2026").1[0]? =
      some (Ev.redactAnnot ⟨45, 20, 95, 30⟩ (1, 1, 1)) := by
  refine ⟨by decide, by decide, by decide, by decide, by decide, by decide⟩

/-- Claim C10: when the Tier B pattern matches the header text but the
literal search for the full matched substring returns no boxes, Tier B
performs no mutation and contributes zero to the replacement count — a
silent no-op, not an error. -/
theorem C10_tierB_silent_noop (shaper : Shaper) (p : Page) (header : Rect)
    (nd g0 g1 : String)
    (hre : regexSearchDate (p.getText header) = some (g0, g1))
    (hs : p.searchFor g0 header = []) :
    tierB shaper p header nd = ([], 0) := by
  simp [tierB, hre, hs]

/-- Claim C10, witness: a page whose header text is `Date: 13-08-2025`
(so the pattern matches) but whose literal search finds nothing. -/
theorem C10_tierB_silent_noop_witness :
    tierB shaper0 pageHeaderTextOnly (headerRect pageHeaderTextOnly 120) "01-01-2026" =
      ([], 0) :=
  C10_tierB_silent_noop shaper0 pageHeaderTextOnly (headerRect pageHeaderTextOnly 120)
    "01-01-2026" "Date: 13-08-2025" "Date: " (by decide) rfl

end PDFEditor
